import Mathlib

/-!
# A shallow embedding of the CV lexer

This file embeds the lexer of the CV language (`src/lexer/src/lib.rs` and
`src/lexer/src/tokens.rs`) into Lean 4 and proves the specification claims
about it.

Modelling conventions:
* The Rust `&str` source buffer is modelled as a `List Char`; `usize` is `Nat`.
* `peek_char` uses `self.content.chars().nth(...)`, i.e. character indexing,
  modelled by `List.get?`.
* The slices `&self.content[start..self.position]` in `get_identifier_string`
  and `create_number_token` are Rust *byte*-range slices of a `&str`.  They
  panic when an index is not a UTF-8 character boundary (or out of range).
  This is modelled exactly by `byteSlice`, which returns `none` on the inputs
  where Rust panics.
* A possible panic is propagated as the `LexOut.panic` constructor; fuel
  exhaustion of the (provably bounded) comment recursion also maps to
  `LexOut.panic`, and the top-level wrappers always supply sufficient fuel.
* Rust source loops (`skip_whitespace`, the identifier / number / comment
  consumption loops) are modelled by structurally recursive functions that
  count how many leading characters the loop consumes, followed by a single
  `advance` by that count.
* `f64` values are abstracted by the literal text that produced them
  (no claim inspects a float value); parse success and failure of
  `str::parse::<f64>` and `str::parse::<i64>` are modelled exactly,
  following the documented grammars.
-/

namespace CV

/-! ## Character classes (Rust `char` methods used by the lexer) -/

/-- UTF-8 encoded size in bytes of a character (Rust `char::len_utf8`). -/
def utf8_size (c : Char) : Nat :=
  if c.toNat < 0x80 then 1
  else if c.toNat < 0x800 then 2
  else if c.toNat < 0x10000 then 3
  else 4

/-- Total UTF-8 byte length of a character sequence (Rust `str::len`). -/
def utf8_len : List Char → Nat
  | [] => 0
  | c :: cs => utf8_size c + utf8_len cs

/-- Rust `char::is_whitespace`: the Unicode `White_Space` property
(U+0009–U+000D, U+0020, U+0085, U+00A0, U+1680, U+2000–U+200A, U+2028,
U+2029, U+202F, U+205F, U+3000). -/
def rust_is_whitespace (c : Char) : Bool :=
  decide (c.toNat ∈ ([9, 10, 11, 12, 13, 32, 133, 160, 5760,
    8192, 8193, 8194, 8195, 8196, 8197, 8198, 8199, 8200, 8201, 8202,
    8232, 8233, 8239, 8287, 12288] : List Nat))

/-- Rust `char::is_digit(10)`: the ASCII digits `'0'..='9'`. -/
def rust_is_digit (c : Char) : Bool :=
  decide (48 ≤ c.toNat ∧ c.toNat ≤ 57)

/-- Rust `char::is_alphanumeric` (Unicode `Alphabetic` or `Nd`/`Nl`/`No`),
exact on the ASCII range.  Above ASCII it is modelled as `false`: every
theorem below applies it to ASCII characters only, so none depends on the
abstracted part. -/
def rust_is_alphanumeric (c : Char) : Bool :=
  decide ((48 ≤ c.toNat ∧ c.toNat ≤ 57) ∨ (65 ≤ c.toNat ∧ c.toNat ≤ 90) ∨
    (97 ≤ c.toNat ∧ c.toNat ≤ 122))

/-- The Rust match pattern `'a'..='z' | 'A'..='Z' | '_'` that starts the
identifier arm of `next_token`. -/
def is_ident_start (c : Char) : Bool :=
  decide ((97 ≤ c.toNat ∧ c.toNat ≤ 122) ∨ (65 ≤ c.toNat ∧ c.toNat ≤ 90) ∨
    c.toNat = 95)

/-! ## Byte-range slicing of a `&str`

`&self.content[a..b]` in Rust takes *byte* offsets into the UTF-8
representation and panics unless `a ≤ b`, both are in range, and both lie on
character boundaries.  `none` marks the panicking inputs. -/

/-- Drop the first `n` bytes of a character sequence; `none` when `n` is not
a character boundary (Rust: slice start out of range / not on a boundary). -/
def byteDrop : List Char → Nat → Option (List Char)
  | cs, 0 => some cs
  | [], _ + 1 => none
  | c :: cs, n + 1 =>
    if utf8_size c ≤ n + 1 then byteDrop cs (n + 1 - utf8_size c) else none

/-- Take the first `n` bytes of a character sequence; `none` when `n` is not
a character boundary (Rust: slice end out of range / not on a boundary). -/
def byteTake : List Char → Nat → Option (List Char)
  | _, 0 => some []
  | [], _ + 1 => none
  | c :: cs, n + 1 =>
    if utf8_size c ≤ n + 1 then (byteTake cs (n + 1 - utf8_size c)).map (c :: ·)
    else none

/-- Rust `&s[a..b]` on a `&str` (byte offsets); `none` exactly where Rust
panics. -/
def byteSlice (cs : List Char) (a b : Nat) : Option (List Char) :=
  if a ≤ b then (byteDrop cs a).bind (fun rest => byteTake rest (b - a))
  else none

/-! ## Number literal parsing (Rust `str::parse`) -/

/-- Decimal value of a digit string. -/
def digits_val (ds : List Char) : Nat :=
  ds.foldl (fun a c => a * 10 + (c.toNat - 48)) 0

/-- A nonempty all-digit run, with its value. -/
def parse_digits (ds : List Char) : Option Nat :=
  if ds ≠ [] ∧ ds.all rust_is_digit then some (digits_val ds) else none

/-- Rust `str::parse::<i64>`: optional sign, at least one digit, and the
value must fit in a signed 64-bit integer. -/
def parse_i64 : List Char → Option Int
  | '+' :: ds =>
    (parse_digits ds).bind fun n =>
      if n ≤ 9223372036854775807 then some (n : Int) else none
  | '-' :: ds =>
    (parse_digits ds).bind fun n =>
      if n ≤ 9223372036854775808 then some (-(n : Int)) else none
  | ds =>
    (parse_digits ds).bind fun n =>
      if n ≤ 9223372036854775807 then some (n : Int) else none

/-- Strip one optional leading sign. -/
def strip_sign : List Char → List Char
  | '+' :: cs => cs
  | '-' :: cs => cs
  | cs => cs

/-- Split at the first `'.'`: the part before it, and (when a dot is
present) the part after it. -/
def split_dot : List Char → List Char × Option (List Char)
  | [] => ([], none)
  | c :: cs =>
    if c = '.' then ([], some cs)
    else
      let p := split_dot cs
      (c :: p.1, p.2)

/-- Split at the first `'e'`/`'E'`: the mantissa part, and (when an
exponent marker is present) the part after it. -/
def split_exp : List Char → List Char × Option (List Char)
  | [] => ([], none)
  | c :: cs =>
    if c = 'e' ∨ c = 'E' then ([], some cs)
    else
      let p := split_exp cs
      (c :: p.1, p.2)

/-- The mantissa grammar of Rust `str::parse::<f64>`:
`Digit+ | Digit+ '.' Digit* | Digit* '.' Digit+`. -/
def is_mantissa (cs : List Char) : Bool :=
  let p := split_dot cs
  match p.2 with
  | none => decide (p.1 ≠ []) && p.1.all rust_is_digit
  | some b =>
    (decide (p.1 ≠ []) || decide (b ≠ [])) && p.1.all rust_is_digit &&
      b.all rust_is_digit

/-- The grammar accepted by Rust `str::parse::<f64>`:
`Sign? ('inf' | 'infinity' | 'nan' | Mantissa (('e'|'E') Sign? Digit+)?)`,
with the keywords case-insensitive. -/
def is_f64_lit (cs : List Char) : Bool :=
  let body := strip_sign cs
  let low := body.map Char.toLower
  if low = "inf".toList ∨ low = "infinity".toList ∨ low = "nan".toList then
    true
  else
    let p := split_exp body
    is_mantissa p.1 &&
      match p.2 with
      | none => true
      | some ex =>
        let ex2 := strip_sign ex
        decide (ex2 ≠ []) && ex2.all rust_is_digit

/-- Rust `str::parse::<f64>`, with the resulting `f64` value abstracted by
the literal text that produced it (no claim inspects the float value;
parse success and failure are modelled exactly). -/
def parse_f64 (cs : List Char) : Option String :=
  if is_f64_lit cs then some cs.asString else none

/-! ## Token model (`src/lexer/src/tokens.rs`) -/

/-- `NumberLiteral` from `tokens.rs`; the `f64` payload of `Float` is
abstracted by the literal text (see `parse_f64`). -/
inductive NumberLiteral where
  | Integer : Int → NumberLiteral
  | Float : String → NumberLiteral
deriving DecidableEq

/-- `TokenKind` from `tokens.rs`. -/
inductive TokenKind where
  | Break | Else | End | False | Fun | For | If | In | Loop | Patch
  | Record | Return | True | Union | When
  | Mut | Colon | Scope | Semicolon | RightArrow | Dot | Range
  | RangeInclusive | Comma | Ampersand | Star | Pipe | LeftBrace
  | RightBrace | LeftBracket | RightBracket | LeftParen | RightParen
  | LessThan | GreaterThan | SingleQuote | DoubleQuote | Newline
  | And | Or | Not | Plus | Minus | Divide | Modulo | Equal | DoubleEqual
  | NotEqual | LessEqual | GreaterEqual | PlusEqual | MinusEqual
  | TimesEqual | DivideEqual | ModuloEqual
  | Identifier : String → TokenKind
  | Number : NumberLiteral → TokenKind

/-- `Span` from `tokens.rs`; the Rust field `end` is called `end_` here
because `end` is a Lean keyword. -/
structure Span where
  start : Nat
  end_ : Nat
deriving DecidableEq

/-- `Token` from `tokens.rs`. -/
structure Token where
  kind : TokenKind
  position : Span

/-- `Token::new`: create a token with the given kind, start position, and
length; `end = start + len - 1` (every caller passes `len ≥ 1`, so the
`usize` subtraction never underflows and agrees with `Nat` subtraction). -/
def Token.new (kind : TokenKind) (start len : Nat) : Token :=
  { kind := kind, position := { start := start, end_ := start + len - 1 } }

/-- `Token::is_single_char_token`. -/
def Token.is_single_char_token (t : Token) : Bool :=
  decide (t.position.start = t.position.end_)

/-! ## The lexer state (`src/lexer/src/lib.rs`) -/

/-- `LexerError` from `lib.rs`. -/
inductive LexerError where
  | UnexpectedCharacter : Char → Nat → LexerError
  | InvalidNumberFormat : Nat → LexerError
deriving DecidableEq

/-- The `Lexer` struct: source content, cursor position (a character
index), and the latched error state. -/
structure Lexer where
  content : List Char
  position : Nat
  error_state : Option LexerError
deriving DecidableEq

/-- `Lexer::new`. -/
def Lexer.new (content : String) : Lexer :=
  { content := content.toList, position := 0, error_state := none }

/-- `Lexer::peek_char`: `self.content.chars().nth(self.position + num_ahead)`. -/
def peek_char (l : Lexer) (num_ahead : Nat) : Option Char :=
  l.content.get? (l.position + num_ahead)

/-- `Lexer::advance`. -/
def advance (l : Lexer) (steps : Nat) : Lexer :=
  { l with position := l.position + steps }

/-- Number of leading characters consumed by the `skip_whitespace` loop:
whitespace characters other than `'\n'`. -/
def ws_count : List Char → Nat
  | [] => 0
  | c :: cs => if rust_is_whitespace c ∧ c ≠ '\n' then ws_count cs + 1 else 0

/-- `Lexer::skip_whitespace`. -/
def skip_whitespace (l : Lexer) : Lexer :=
  advance l (ws_count (l.content.drop l.position))

/-- `Lexer::error`. -/
def Lexer.error (l : Lexer) : Option LexerError :=
  l.error_state

/-- Number of leading characters consumed by the `get_identifier_string`
loop: `c.is_alphanumeric() || c == '_'`. -/
def ident_count : List Char → Nat
  | [] => 0
  | c :: cs =>
    if rust_is_alphanumeric c || c = '_' then ident_count cs + 1 else 0

/-- `Lexer::get_identifier_string`: advance over the identifier characters,
then slice `&self.content[start..self.position]` — a byte-range slice with
character-count indices, which can panic (`none`). -/
def get_identifier_string (l : Lexer) : Option (List Char) × Lexer :=
  let start := l.position
  let l2 := advance l (ident_count (l.content.drop l.position))
  (byteSlice l2.content start l2.position, l2)

/-- Number of leading characters consumed by the `create_number_token`
loop: `c.is_digit(10)` or `c == '.'`. -/
def number_count : List Char → Nat
  | [] => 0
  | c :: cs => if rust_is_digit c || c = '.' then number_count cs + 1 else 0

/-- `Lexer::create_number_token`.  The loop consumes digits and decimal
points (recording in `has_decimal_point` whether any `'.'` was consumed),
then the consumed text is sliced (`&self.content[start..self.position]`,
a byte-range slice that can panic — `none`) and parsed as `f64` or `i64`;
parse failure is `InvalidNumberFormat` at the start offset. -/
def create_number_token (l : Lexer) :
    Option (Except LexerError Token) × Lexer :=
  let start := l.position
  let count := number_count (l.content.drop l.position)
  let has_decimal_point := ((l.content.drop l.position).take count).contains '.'
  let l2 := advance l count
  let length := l2.position - start
  match byteSlice l2.content start l2.position with
  | none => (none, l2)
  | some value =>
    if has_decimal_point then
      match parse_f64 value with
      | some num =>
        (some (.ok (Token.new (.Number (.Float num)) start length)), l2)
      | none => (some (.error (.InvalidNumberFormat start)), l2)
    else
      match parse_i64 value with
      | some num =>
        (some (.ok (Token.new (.Number (.Integer num)) start length)), l2)
      | none => (some (.error (.InvalidNumberFormat start)), l2)

/-- `Lexer::create_simple_token`. -/
def create_simple_token (l : Lexer) (kind : TokenKind) (length : Nat) :
    Token × Lexer :=
  let start := l.position
  (Token.new kind start length, advance l length)

/-- `Lexer::create_optional_eq_token` (the source spells the first
parameter `without_eq_kid`). -/
def create_optional_eq_token (l : Lexer)
    (without_eq_kid with_eq_kind : TokenKind) : Token × Lexer :=
  let start := l.position
  if peek_char l 1 = some '=' then (Token.new with_eq_kind start 2, advance l 2)
  else (Token.new without_eq_kid start 1, advance l 1)

/-- The keyword table of the identifier arm of `next_token`; unmatched
text becomes an `Identifier`. -/
def keyword_kind (identifier : String) : TokenKind :=
  if identifier = "break" then .Break
  else if identifier = "else" then .Else
  else if identifier = "end" then .End
  else if identifier = "false" then .False
  else if identifier = "fn" then .Fun
  else if identifier = "for" then .For
  else if identifier = "if" then .If
  else if identifier = "in" then .In
  else if identifier = "loop" then .Loop
  else if identifier = "patch" then .Patch
  else if identifier = "record" then .Record
  else if identifier = "return" then .Return
  else if identifier = "true" then .True
  else if identifier = "union" then .Union
  else if identifier = "when" then .When
  else if identifier = "and" then .And
  else if identifier = "or" then .Or
  else if identifier = "not" then .Not
  else .Identifier identifier

/-- Characters consumed by the line-comment loop (after the `//`): up to,
not including, the next `'\n'` or end of input. -/
def line_comment_count : List Char → Nat
  | [] => 0
  | c :: cs => if c = '\n' then 0 else line_comment_count cs + 1

/-- Characters consumed by the block-comment loop (after the `/*`): up to
and including the first `*/`, or all of them when no `*/` follows. -/
def block_comment_count : List Char → Nat
  | [] => 0
  | c :: cs =>
    if c = '*' ∧ cs.head? = some '/' then 2 else block_comment_count cs + 1

/-- Whether the two-character sequence `*/` occurs anywhere in the list. -/
def has_star_slash : List Char → Bool
  | [] => false
  | c :: cs =>
    (decide (c = '*') && decide (cs.head? = some '/')) || has_star_slash cs

/-! ## `next_token` -/

/-- The outcome of one `next_token` call:
`tok t` is `Ok(Some(t))`, `eof` is `Ok(None)`, `err e` is `Err(e)`, and
`panic` marks the inputs where the Rust code panics (a byte-range slice
not on character boundaries). -/
inductive LexOut where
  | tok : Token → LexOut
  | eof : LexOut
  | err : LexerError → LexOut
  | panic : LexOut

/-- Lift a `Token × Lexer` helper result into `LexOut`. -/
def emit : Token × Lexer → LexOut × Lexer
  | (t, l) => (.tok t, l)

/-- The character dispatch of `next_token` (lines 136–257 of `lib.rs`):
`c` is the peeked character, `l` the lexer after `skip_whitespace`, and
`rec` the recursive `self.next_token()` call used by the two comment arms.
The Rust `match` arms are rendered as an `if`-chain in source order. -/
def dispatch (rec : Lexer → LexOut × Lexer) (c : Char) (l : Lexer) :
    LexOut × Lexer :=
  if c = '@' then emit (create_simple_token l .Mut 1)
  else if c = ';' then emit (create_simple_token l .Semicolon 1)
  else if c = ',' then emit (create_simple_token l .Comma 1)
  else if c = '&' then emit (create_simple_token l .Ampersand 1)
  else if c = '|' then emit (create_simple_token l .Pipe 1)
  else if c = '{' then emit (create_simple_token l .LeftBrace 1)
  else if c = '}' then emit (create_simple_token l .RightBrace 1)
  else if c = '[' then emit (create_simple_token l .LeftBracket 1)
  else if c = ']' then emit (create_simple_token l .RightBracket 1)
  else if c = '(' then emit (create_simple_token l .LeftParen 1)
  else if c = ')' then emit (create_simple_token l .RightParen 1)
  else if c = '\n' then emit (create_simple_token l .Newline 1)
  else if c = '\'' then emit (create_simple_token l .SingleQuote 1)
  else if c = '\"' then emit (create_simple_token l .DoubleQuote 1)
  else if c = '=' then emit (create_optional_eq_token l .Equal .DoubleEqual)
  else if c = '<' then emit (create_optional_eq_token l .LessThan .LessEqual)
  else if c = '>' then
    emit (create_optional_eq_token l .GreaterThan .GreaterEqual)
  else if c = '+' then emit (create_optional_eq_token l .Plus .PlusEqual)
  else if c = '%' then emit (create_optional_eq_token l .Modulo .ModuloEqual)
  else if c = '*' then emit (create_optional_eq_token l .Star .TimesEqual)
  else if c = ':' then
    if peek_char l 1 = some ':' then emit (create_simple_token l .Scope 2)
    else emit (create_simple_token l .Colon 1)
  else if c = '!' then
    if peek_char l 1 = some '=' then emit (create_simple_token l .NotEqual 2)
    else (.err (.UnexpectedCharacter '!' l.position), l)
  else if c = '.' then
    if peek_char l 1 = some '.' then
      if peek_char l 2 = some '=' then
        emit (create_simple_token l .RangeInclusive 3)
      else emit (create_simple_token l .Range 2)
    else emit (create_simple_token l .Dot 1)
  else if c = '-' then
    if peek_char l 1 = some '>' then emit (create_simple_token l .RightArrow 2)
    else if peek_char l 1 = some '=' then
      emit (create_simple_token l .MinusEqual 2)
    else emit (create_simple_token l .Minus 1)
  else if c = '/' then
    if peek_char l 1 = some '/' then
      -- Skip single-line comment, then recurse for the next real token.
      let l2 := advance l 2
      let l3 := advance l2 (line_comment_count (l2.content.drop l2.position))
      rec l3
    else if peek_char l 1 = some '*' then
      -- Skip multi-line comment, then recurse for the next real token.
      let l2 := advance l 2
      let l3 := advance l2 (block_comment_count (l2.content.drop l2.position))
      rec l3
    else if peek_char l 1 = some '=' then
      emit (create_simple_token l .DivideEqual 2)
    else emit (create_simple_token l .Divide 1)
  else if is_ident_start c then
    match get_identifier_string l with
    | (none, l2) => (.panic, l2)
    | (some chars, l2) =>
      let identifier := chars.asString
      let length := utf8_len chars
      let kind := keyword_kind identifier
      let start := l2.position - length
      (.tok (Token.new kind start length), l2)
  else if rust_is_digit c then
    match create_number_token l with
    | (none, l2) => (.panic, l2)
    | (some (.ok t), l2) => (.tok t, l2)
    | (some (.error e), l2) => (.err e, l2)
  else (.err (.UnexpectedCharacter c l.position), l)

/-- `Lexer::next_token` with explicit fuel for the comment recursion.
Each recursive call strictly increases the cursor by at least two, so
`l.content.length + 1` fuel always suffices; fuel `0` is unreachable from
the wrapper and maps to `panic`. -/
def next_token_go : Nat → Lexer → LexOut × Lexer
  | 0, l => (.panic, l)
  | f + 1, l =>
    let l1 := skip_whitespace l
    match peek_char l1 0 with
    | some c => dispatch (next_token_go f) c l1
    | none => (.eof, l1)

/-- `Lexer::next_token`. -/
def next_token (l : Lexer) : LexOut × Lexer :=
  next_token_go (l.content.length + 1) l

/-- The outcome of one `Iterator::next` call on the lexer. -/
inductive IterOut where
  | item_ok : Token → IterOut
  | item_err : LexerError → IterOut
  | done : IterOut
  | panic : IterOut

/-- `Iterator::next` for `Lexer` (lines 280–289 of `lib.rs`): forwards
`next_token`, latching any error into `error_state`. -/
def iter_next (l : Lexer) : IterOut × Lexer :=
  match next_token l with
  | (.tok t, l') => (.item_ok t, l')
  | (.eof, l') => (.done, l')
  | (.err e, l') => (.item_err e, { l' with error_state := some e })
  | (.panic, l') => (.panic, l')

/-- The outcome of `Lexer::tokenize`. -/
inductive TokensOut where
  | ok : List Token → TokensOut
  | err : LexerError → TokensOut
  | panic : TokensOut

/-- The draining loop of `Lexer::tokenize`, with fuel: every produced token
advances the cursor, so `l.content.length + 1` fuel always suffices. -/
def tokenize_go : Nat → Lexer → TokensOut
  | 0, _ => .panic
  | f + 1, l =>
    match iter_next l with
    | (.done, _) => .ok []
    | (.item_ok t, l') =>
      match tokenize_go f l' with
      | .ok ts => .ok (t :: ts)
      | r => r
    | (.item_err e, _) => .err e
    | (.panic, _) => .panic

/-- `Lexer::tokenize`: drain the iterator into a vector, short-circuiting
on the first error. -/
def tokenize (l : Lexer) : TokensOut :=
  tokenize_go (l.content.length + 1) l

/-- The characters with a dedicated non-error arm in the `next_token`
dispatch, other than `'!'` and the identifier / digit ranges. -/
def start_chars : List Char :=
  ['@', ';', ',', '&', '|', '{', '}', '[', ']', '(', ')', '\n', '\'', '\"',
   '=', '<', '>', '+', '%', '*', ':', '.', '-', '/']

/-! ## Helper lemmas -/

theorem utf8_size_pos (c : Char) : 1 ≤ utf8_size c := by
  unfold utf8_size
  repeat' split
  all_goals omega

theorem utf8_len_pos {cs : List Char} (h : cs ≠ []) : 1 ≤ utf8_len cs := by
  cases cs with
  | nil => simp at h
  | cons c t =>
    have := utf8_size_pos c
    simp only [utf8_len]
    omega

theorem byteTake_ne_nil :
    ∀ {cs : List Char} {n : Nat} {v : List Char},
      byteTake cs n = some v → 1 ≤ n → v ≠ []
  | cs, 0, v => by omega
  | [], n + 1, v => by simp [byteTake]
  | c :: cs, n + 1, v => by
    intro h _
    unfold byteTake at h
    split at h
    · rcases Option.map_eq_some'.mp h with ⟨w, _, hw⟩
      simp [← hw]
    · simp at h

theorem byteSlice_ne_nil {cs : List Char} {a b : Nat} {v : List Char}
    (h : byteSlice cs a b = some v) (hab : a < b) : v ≠ [] := by
  unfold byteSlice at h
  rw [if_pos (Nat.le_of_lt hab)] at h
  rcases Option.bind_eq_some.mp h with ⟨r, _, htake⟩
  exact byteTake_ne_nil htake (by omega)

theorem drop_cons_of_get? :
    ∀ {cs : List Char} {p : Nat} {c : Char},
      cs.get? p = some c → cs.drop p = c :: cs.drop (p + 1)
  | [], p, c => by simp
  | d :: t, 0, c => by
    intro h
    simp only [List.get?, Option.some.injEq] at h
    subst h
    rfl
  | d :: t, p + 1, c => by
    intro h
    simp only [List.get?] at h
    simpa using drop_cons_of_get? h

theorem advance_zero (l : Lexer) : advance l 0 = l := rfl

theorem skip_whitespace_content (l : Lexer) :
    (skip_whitespace l).content = l.content := rfl

/-- The character under the cursor after `skip_whitespace` is the first
character the whitespace loop refused to consume. -/
theorem peek_skip_whitespace (l : Lexer) :
    peek_char (skip_whitespace l) 0 =
      (l.content.drop l.position).get? (ws_count (l.content.drop l.position)) := by
  simp [skip_whitespace, advance, peek_char, List.get?_drop]

/-- The whitespace loop stops only at a character that is not
(whitespace-other-than-newline). -/
theorem ws_stop :
    ∀ {rest : List Char} {c : Char},
      rest.get? (ws_count rest) = some c →
        ¬(rust_is_whitespace c = true ∧ c ≠ '\n')
  | [], c => by simp
  | d :: t, c => by
    intro h
    by_cases hd : rust_is_whitespace d = true ∧ d ≠ '\n'
    · simp only [ws_count, if_pos hd] at h
      exact ws_stop (by simpa using h)
    · simp only [ws_count, if_neg hd] at h
      simp only [List.get?] at h
      cases h
      exact hd

/-- `skip_whitespace` is the identity when the current character is not
(whitespace-other-than-newline). -/
theorem skip_whitespace_fixed {l : Lexer} {c : Char}
    (hp : l.content.get? l.position = some c)
    (hnw : ¬(rust_is_whitespace c = true ∧ c ≠ '\n')) :
    skip_whitespace l = l := by
  unfold skip_whitespace
  rw [drop_cons_of_get? hp]
  simp only [ws_count, if_neg hnw]
  rfl

/-- Past the end of the buffer, `next_token` reports end of stream and
does not move. -/
theorem go_eof {f : Nat} (hf : 1 ≤ f) {l : Lexer}
    (hp : l.content.length ≤ l.position) :
    next_token_go f l = (.eof, l) := by
  obtain ⟨g, rfl⟩ : ∃ g, f = g + 1 := ⟨f - 1, by omega⟩
  have hskip : skip_whitespace l = l := by
    unfold skip_whitespace
    rw [List.drop_eq_nil_of_le hp]
    rfl
  simp only [next_token_go, hskip]
  rw [show peek_char l 0 = none from List.get?_eq_none.mpr (by omega)]

/-- A character matched by the Rust identifier-start pattern satisfies the
identifier loop condition `c.is_alphanumeric() || c == '_'`. -/
theorem ident_start_cond {c : Char} (h : is_ident_start c = true) :
    (rust_is_alphanumeric c || c = '_') = true := by
  simp only [is_ident_start, decide_eq_true_eq] at h
  simp only [Bool.or_eq_true, decide_eq_true_eq, rust_is_alphanumeric]
  rcases h with h | h | h
  · left; omega
  · left; omega
  · right
    have h2 : c = Char.ofNat c.toNat := (Char.ofNat_toNat c).symm
    rw [h] at h2
    exact h2

/-- An ASCII digit differs from every character outside `'0'..='9'`. -/
theorem digit_ne {c : Char} (hd : rust_is_digit c = true) (d : Char)
    (hdn : ¬(48 ≤ d.toNat ∧ d.toNat ≤ 57)) : ¬(c = d) := by
  intro heq
  subst heq
  simp only [rust_is_digit, decide_eq_true_eq] at hd
  exact hdn hd

/-- An ASCII digit does not match the identifier-start pattern. -/
theorem digit_not_ident {c : Char} (hd : rust_is_digit c = true) :
    ¬(is_ident_start c = true) := by
  simp only [rust_is_digit, decide_eq_true_eq] at hd
  simp only [is_ident_start, decide_eq_true_eq]
  omega

/-- When the cursor is on a digit, the number loop consumes at least one
character. -/
theorem number_count_pos {l : Lexer} {c : Char}
    (hpeek : peek_char l 0 = some c) (hd : rust_is_digit c = true) :
    1 ≤ number_count (l.content.drop l.position) := by
  have hp : l.content.get? l.position = some c := by
    simpa [peek_char] using hpeek
  rw [drop_cons_of_get? hp]
  simp only [number_count, hd, Bool.true_or, if_pos]
  omega

/-- Spans produced by `create_simple_token` satisfy `start ≤ end`. -/
theorem span_ok_simple {l : Lexer} {k : TokenKind} {n : Nat} (hn : 1 ≤ n)
    {t : Token} (h : (emit (create_simple_token l k n)).1 = .tok t) :
    t.position.start ≤ t.position.end_ := by
  simp only [emit, create_simple_token, LexOut.tok.injEq] at h
  subst h
  simp only [Token.new]
  omega

/-- Spans produced by `create_optional_eq_token` satisfy `start ≤ end`. -/
theorem span_ok_opt {l : Lexer} {k1 k2 : TokenKind} {t : Token}
    (h : (emit (create_optional_eq_token l k1 k2)).1 = .tok t) :
    t.position.start ≤ t.position.end_ := by
  unfold create_optional_eq_token at h
  split at h <;>
  · simp only [emit, LexOut.tok.injEq] at h
    subst h
    simp only [Token.new]
    omega

/-- Spans of tokens produced by `create_number_token` satisfy
`start ≤ end`. -/
theorem number_token_span {l : Lexer} {c : Char}
    (hpeek : peek_char l 0 = some c) (hd : rust_is_digit c = true)
    {t : Token} {l2 : Lexer}
    (h : create_number_token l = (some (.ok t), l2)) :
    t.position.start ≤ t.position.end_ := by
  have hcnt := number_count_pos hpeek hd
  unfold create_number_token at h
  dsimp only [] at h
  split at h
  · simp at h
  · split at h
    · split at h
      · simp only [Prod.mk.injEq, Option.some.injEq, Except.ok.injEq] at h
        rw [← h.1]
        simp only [Token.new, advance]
        omega
      · simp at h
    · split at h
      · simp only [Prod.mk.injEq, Option.some.injEq, Except.ok.injEq] at h
        rw [← h.1]
        simp only [Token.new, advance]
        omega
      · simp at h

/-- On a digit, the dispatch reaches the numeric-literal arm. -/
theorem dispatch_digit (rec : Lexer → LexOut × Lexer) {c : Char} (l : Lexer)
    (hd : rust_is_digit c = true) :
    dispatch rec c l =
      (match create_number_token l with
       | (none, l2) => (.panic, l2)
       | (some (.ok t), l2) => (.tok t, l2)
       | (some (.error e), l2) => (.err e, l2)) := by
  have ne := digit_ne hd
  unfold dispatch
  rw [if_neg (ne '@' (by decide)), if_neg (ne ';' (by decide)),
    if_neg (ne ',' (by decide)), if_neg (ne '&' (by decide)),
    if_neg (ne '|' (by decide)), if_neg (ne '{' (by decide)),
    if_neg (ne '}' (by decide)), if_neg (ne '[' (by decide)),
    if_neg (ne ']' (by decide)), if_neg (ne '(' (by decide)),
    if_neg (ne ')' (by decide)), if_neg (ne '\n' (by decide)),
    if_neg (ne '\'' (by decide)), if_neg (ne '\"' (by decide)),
    if_neg (ne '=' (by decide)), if_neg (ne '<' (by decide)),
    if_neg (ne '>' (by decide)), if_neg (ne '+' (by decide)),
    if_neg (ne '%' (by decide)), if_neg (ne '*' (by decide)),
    if_neg (ne ':' (by decide)), if_neg (ne '!' (by decide)),
    if_neg (ne '.' (by decide)), if_neg (ne '-' (by decide)),
    if_neg (ne '/' (by decide)), if_neg (digit_not_ident hd), if_pos hd]

/-- On a character that cannot start any token (a bare `'!'` included),
the dispatch reports `UnexpectedCharacter` at the cursor position and does
not advance. -/
theorem dispatch_unexpected (rec : Lexer → LexOut × Lexer) {c : Char}
    (l : Lexer) (hmem : ∀ d ∈ start_chars, c ≠ d)
    (hni : is_ident_start c = false) (hnd : rust_is_digit c = false)
    (hbang : c = '!' → ¬(peek_char l 1 = some '=')) :
    dispatch rec c l = (.err (.UnexpectedCharacter c l.position), l) := by
  unfold dispatch
  rw [if_neg (hmem '@' (by decide)), if_neg (hmem ';' (by decide)),
    if_neg (hmem ',' (by decide)), if_neg (hmem '&' (by decide)),
    if_neg (hmem '|' (by decide)), if_neg (hmem '{' (by decide)),
    if_neg (hmem '}' (by decide)), if_neg (hmem '[' (by decide)),
    if_neg (hmem ']' (by decide)), if_neg (hmem '(' (by decide)),
    if_neg (hmem ')' (by decide)), if_neg (hmem '\n' (by decide)),
    if_neg (hmem '\'' (by decide)), if_neg (hmem '\"' (by decide)),
    if_neg (hmem '=' (by decide)), if_neg (hmem '<' (by decide)),
    if_neg (hmem '>' (by decide)), if_neg (hmem '+' (by decide)),
    if_neg (hmem '%' (by decide)), if_neg (hmem '*' (by decide)),
    if_neg (hmem ':' (by decide))]
  by_cases hc : c = '!'
  · rw [if_pos hc, if_neg (hbang hc)]
    subst hc
    rfl
  · rw [if_neg hc, if_neg (hmem '.' (by decide)),
      if_neg (hmem '-' (by decide)), if_neg (hmem '/' (by decide)),
      if_neg (show ¬(is_ident_start c = true) by simp [hni]),
      if_neg (show ¬(rust_is_digit c = true) by simp [hnd])]

/-- On `/*`, the dispatch skips to the end of the block comment and
recurses. -/
theorem dispatch_slash_block (rec : Lexer → LexOut × Lexer) (l : Lexer)
    (h1 : peek_char l 1 = some '*') :
    dispatch rec '/' l =
      rec (advance (advance l 2)
        (block_comment_count
          ((advance l 2).content.drop (advance l 2).position))) := by
  unfold dispatch
  rw [h1]
  simp

/-- When the cursor is on an identifier-start character, the identifier
loop consumes at least one character. -/
theorem ident_count_pos {l : Lexer} {c : Char}
    (hpeek : peek_char l 0 = some c) (hi : is_ident_start c = true) :
    1 ≤ ident_count (l.content.drop l.position) := by
  have hp : l.content.get? l.position = some c := by
    simpa [peek_char] using hpeek
  rw [drop_cons_of_get? hp]
  simp [ident_count, ident_start_cond hi]

/-- Every token the dispatch emits has `start ≤ end`, provided the
recursive continuation maintains this. -/
theorem dispatch_span (rec : Lexer → LexOut × Lexer)
    (hrec : ∀ l' t, (rec l').1 = .tok t → t.position.start ≤ t.position.end_)
    (c : Char) (l : Lexer) (hpeek : peek_char l 0 = some c) :
    ∀ t, (dispatch rec c l).1 = .tok t →
      t.position.start ≤ t.position.end_ := by
  intro t h
  unfold dispatch at h
  by_cases hc1 : c = '@'
  · rw [if_pos hc1] at h
    exact span_ok_simple (by decide) h
  rw [if_neg hc1] at h
  by_cases hc2 : c = ';'
  · rw [if_pos hc2] at h
    exact span_ok_simple (by decide) h
  rw [if_neg hc2] at h
  by_cases hc3 : c = ','
  · rw [if_pos hc3] at h
    exact span_ok_simple (by decide) h
  rw [if_neg hc3] at h
  by_cases hc4 : c = '&'
  · rw [if_pos hc4] at h
    exact span_ok_simple (by decide) h
  rw [if_neg hc4] at h
  by_cases hc5 : c = '|'
  · rw [if_pos hc5] at h
    exact span_ok_simple (by decide) h
  rw [if_neg hc5] at h
  by_cases hc6 : c = '{'
  · rw [if_pos hc6] at h
    exact span_ok_simple (by decide) h
  rw [if_neg hc6] at h
  by_cases hc7 : c = '}'
  · rw [if_pos hc7] at h
    exact span_ok_simple (by decide) h
  rw [if_neg hc7] at h
  by_cases hc8 : c = '['
  · rw [if_pos hc8] at h
    exact span_ok_simple (by decide) h
  rw [if_neg hc8] at h
  by_cases hc9 : c = ']'
  · rw [if_pos hc9] at h
    exact span_ok_simple (by decide) h
  rw [if_neg hc9] at h
  by_cases hc10 : c = '('
  · rw [if_pos hc10] at h
    exact span_ok_simple (by decide) h
  rw [if_neg hc10] at h
  by_cases hc11 : c = ')'
  · rw [if_pos hc11] at h
    exact span_ok_simple (by decide) h
  rw [if_neg hc11] at h
  by_cases hc12 : c = '\n'
  · rw [if_pos hc12] at h
    exact span_ok_simple (by decide) h
  rw [if_neg hc12] at h
  by_cases hc13 : c = '\''
  · rw [if_pos hc13] at h
    exact span_ok_simple (by decide) h
  rw [if_neg hc13] at h
  by_cases hc14 : c = '\"'
  · rw [if_pos hc14] at h
    exact span_ok_simple (by decide) h
  rw [if_neg hc14] at h
  by_cases hc15 : c = '='
  · rw [if_pos hc15] at h
    exact span_ok_opt h
  rw [if_neg hc15] at h
  by_cases hc16 : c = '<'
  · rw [if_pos hc16] at h
    exact span_ok_opt h
  rw [if_neg hc16] at h
  by_cases hc17 : c = '>'
  · rw [if_pos hc17] at h
    exact span_ok_opt h
  rw [if_neg hc17] at h
  by_cases hc18 : c = '+'
  · rw [if_pos hc18] at h
    exact span_ok_opt h
  rw [if_neg hc18] at h
  by_cases hc19 : c = '%'
  · rw [if_pos hc19] at h
    exact span_ok_opt h
  rw [if_neg hc19] at h
  by_cases hc20 : c = '*'
  · rw [if_pos hc20] at h
    exact span_ok_opt h
  rw [if_neg hc20] at h
  by_cases hc21 : c = ':'
  · rw [if_pos hc21] at h
    by_cases hp1 : peek_char l 1 = some ':'
    · rw [if_pos hp1] at h
      exact span_ok_simple (by decide) h
    · rw [if_neg hp1] at h
      exact span_ok_simple (by decide) h
  rw [if_neg hc21] at h
  by_cases hc22 : c = '!'
  · rw [if_pos hc22] at h
    by_cases hp1 : peek_char l 1 = some '='
    · rw [if_pos hp1] at h
      exact span_ok_simple (by decide) h
    · rw [if_neg hp1] at h
      simp at h
  rw [if_neg hc22] at h
  by_cases hc23 : c = '.'
  · rw [if_pos hc23] at h
    by_cases hp1 : peek_char l 1 = some '.'
    · rw [if_pos hp1] at h
      by_cases hp2 : peek_char l 2 = some '='
      · rw [if_pos hp2] at h
        exact span_ok_simple (by decide) h
      · rw [if_neg hp2] at h
        exact span_ok_simple (by decide) h
    · rw [if_neg hp1] at h
      exact span_ok_simple (by decide) h
  rw [if_neg hc23] at h
  by_cases hc24 : c = '-'
  · rw [if_pos hc24] at h
    by_cases hp1 : peek_char l 1 = some '>'
    · rw [if_pos hp1] at h
      exact span_ok_simple (by decide) h
    · rw [if_neg hp1] at h
      by_cases hp2 : peek_char l 1 = some '='
      · rw [if_pos hp2] at h
        exact span_ok_simple (by decide) h
      · rw [if_neg hp2] at h
        exact span_ok_simple (by decide) h
  rw [if_neg hc24] at h
  by_cases hc25 : c = '/'
  · rw [if_pos hc25] at h
    by_cases hp1 : peek_char l 1 = some '/'
    · rw [if_pos hp1] at h
      exact hrec _ _ h
    · rw [if_neg hp1] at h
      by_cases hp2 : peek_char l 1 = some '*'
      · rw [if_pos hp2] at h
        exact hrec _ _ h
      · rw [if_neg hp2] at h
        by_cases hp3 : peek_char l 1 = some '='
        · rw [if_pos hp3] at h
          exact span_ok_simple (by decide) h
        · rw [if_neg hp3] at h
          exact span_ok_simple (by decide) h
  rw [if_neg hc25] at h
  by_cases hident : is_ident_start c = true
  · rw [if_pos hident] at h
    rcases hgi : get_identifier_string l with ⟨o, l2⟩
    rw [hgi] at h
    rcases o with _ | chars
    · simp at h
    · dsimp only [] at h
      simp only [LexOut.tok.injEq] at h
      subst h
      unfold get_identifier_string at hgi
      dsimp only [] at hgi
      rw [Prod.mk.injEq] at hgi
      have hcnt := ident_count_pos hpeek hident
      have hne : chars ≠ [] :=
        byteSlice_ne_nil hgi.1 (by simp only [advance]; omega)
      have hlen := utf8_len_pos hne
      simp only [Token.new]
      omega
  rw [if_neg hident] at h
  by_cases hdigit : rust_is_digit c = true
  · rw [if_pos hdigit] at h
    rcases hcn : create_number_token l with ⟨o, l2⟩
    rw [hcn] at h
    rcases o with _ | e_or_t
    · simp at h
    · rcases e_or_t with e | t2
      · simp at h
      · dsimp only [] at h
        simp only [LexOut.tok.injEq] at h
        subst h
        exact number_token_span hpeek hdigit hcn
  rw [if_neg hdigit] at h
  simp at h

/-- Every token `next_token` emits, at any fuel, has `start ≤ end`. -/
theorem next_token_go_span :
    ∀ (f : Nat) (l : Lexer) (t : Token),
      (next_token_go f l).1 = .tok t → t.position.start ≤ t.position.end_ := by
  intro f
  induction f with
  | zero =>
    intro l t h
    simp [next_token_go] at h
  | succ f ih =>
    intro l t h
    simp only [next_token_go] at h
    rcases hp : peek_char (skip_whitespace l) 0 with _ | c
    · rw [hp] at h
      simp at h
    · rw [hp] at h
      dsimp only [] at h
      exact dispatch_span (next_token_go f) ih c (skip_whitespace l) hp t h

/-! ## The claims -/

/-- Claim C1 (code bug): the spec requires multi-byte-safe, character-based
indexing so that `next_token` never panics, but the code slices
`&self.content[start..self.position]` with character-count indices used as
byte offsets.  On the input `"\u{00A0}a"` (NO-BREAK SPACE, then `a`) the
whitespace loop consumes the two-byte U+00A0, the identifier arm then
slices bytes `1..2`, and byte 1 is not a character boundary: Rust panics. -/
theorem claim_C1 : (next_token (Lexer.new "\u00A0a")).1 = .panic := rfl

/-- Claim C2: whenever the token-producing iterator call returns an error,
that error is latched so that `error()` returns it afterwards, and the
returned `Result` is exactly the error `next_token` produced, with the
cursor state unchanged by the latching. -/
theorem claim_C2 (l : Lexer) (e : LexerError) (l' : Lexer)
    (h : iter_next l = (.item_err e, l')) :
    Lexer.error l' = some e ∧ (next_token l).1 = .err e ∧
      l'.position = (next_token l).2.position ∧
      l'.content = (next_token l).2.content := by
  unfold iter_next at h
  rcases hnt : next_token l with ⟨r, l2⟩
  rw [hnt] at h
  cases r with
  | tok t => simp at h
  | eof => simp at h
  | panic => simp at h
  | err e2 =>
    simp only [Prod.mk.injEq, IterOut.item_err.injEq] at h
    rcases h with ⟨rfl, rfl⟩
    simp [Lexer.error, hnt]

/-- Witness for C2 at the input `"!"`. -/
theorem claim_C2_witness :
    Lexer.error (iter_next (Lexer.new "!")).2 =
        some (.UnexpectedCharacter '!' 0) ∧
      (next_token (Lexer.new "!")).1 = .err (.UnexpectedCharacter '!' 0) ∧
      (iter_next (Lexer.new "!")).2.position =
        (next_token (Lexer.new "!")).2.position ∧
      (iter_next (Lexer.new "!")).2.content =
        (next_token (Lexer.new "!")).2.content :=
  claim_C2 (Lexer.new "!") (.UnexpectedCharacter '!' 0)
    (iter_next (Lexer.new "!")).2 rfl

/-- Claim C3: `Token::new` sets `end = start + length - 1`; every token
emitted by `next_token` has `span.end >= span.start` (no zero-length
tokens); and a token constructed with length `len ≥ 1` occupies exactly
one character iff `span.start == span.end`. -/
theorem claim_C3 :
    (∀ (kind : TokenKind) (start len : Nat), 1 ≤ len →
      (Token.new kind start len).position = { start := start, end_ := start + len - 1 }) ∧
    (∀ (l : Lexer) (t : Token), (next_token l).1 = .tok t →
      t.position.start ≤ t.position.end_) ∧
    (∀ (kind : TokenKind) (start len : Nat), 1 ≤ len →
      ((Token.new kind start len).is_single_char_token = true ↔ len = 1)) := by
  refine ⟨?_, ?_, ?_⟩
  · intro kind start len _
    rfl
  · intro l t h
    exact next_token_go_span _ l t h
  · intro kind start len hlen
    simp only [Token.is_single_char_token, Token.new, decide_eq_true_eq]
    omega

/-- Witness for C3: a three-character token, the emitted `..=` token, and a
one-character token. -/
theorem claim_C3_witness :
    (Token.new .Comma 5 3).position = { start := 5, end_ := 7 } ∧
    (Token.new .RangeInclusive 0 3).position.start ≤
      (Token.new .RangeInclusive 0 3).position.end_ ∧
    ((Token.new .Comma 5 1).is_single_char_token = true ↔ 1 = 1) :=
  ⟨claim_C3.1 .Comma 5 3 (by decide),
    claim_C3.2.1 (Lexer.new "..=") (Token.new .RangeInclusive 0 3) rfl,
    claim_C3.2.2 .Comma 5 1 (by decide)⟩

/-- `create_number_token` always advances the cursor over the whole
consumed digits-and-dots run, whatever the validation outcome. -/
theorem create_number_token_state (l : Lexer) :
    (create_number_token l).2 =
      advance l (number_count (l.content.drop l.position)) := by
  unfold create_number_token
  dsimp only []
  split
  · rfl
  · split
    · split <;> rfl
    · split <;> rfl

/-- Every error produced by `create_number_token` is `InvalidNumberFormat`
anchored at the literal start offset. -/
theorem create_number_token_err {l : Lexer} {e : LexerError}
    (h : (create_number_token l).1 = some (.error e)) :
    e = .InvalidNumberFormat l.position := by
  unfold create_number_token at h
  dsimp only [] at h
  split at h
  · simp at h
  · split at h
    · split at h
      · simp at h
      · simp only [Option.some.injEq, Except.error.injEq] at h
        exact h.symm
    · split at h
      · simp at h
      · simp only [Option.some.injEq, Except.error.injEq] at h
        exact h.symm

/-- Claim C4: for a numeric literal starting with a digit, the full run of
digits and decimal points is consumed before validation (the cursor lands
past the whole literal in every outcome), and any resulting error — via
`create_number_token` or surfaced by `next_token` — is
`InvalidNumberFormat` anchored at the literal start offset. -/
theorem claim_C4 (l : Lexer) (c : Char)
    (hpeek : peek_char (skip_whitespace l) 0 = some c)
    (hdig : rust_is_digit c = true) :
    (create_number_token (skip_whitespace l)).2.position =
      (skip_whitespace l).position +
        number_count ((skip_whitespace l).content.drop
          (skip_whitespace l).position) ∧
    1 ≤ number_count ((skip_whitespace l).content.drop
      (skip_whitespace l).position) ∧
    (∀ e, (create_number_token (skip_whitespace l)).1 = some (.error e) →
      e = .InvalidNumberFormat (skip_whitespace l).position) ∧
    (∀ e, (next_token l).1 = .err e →
      e = .InvalidNumberFormat (skip_whitespace l).position) := by
  refine ⟨?_, number_count_pos hpeek hdig, ?_, ?_⟩
  · rw [create_number_token_state]
    rfl
  · intro e h
    exact create_number_token_err h
  · intro e h
    unfold next_token at h
    simp only [next_token_go] at h
    rw [hpeek] at h
    dsimp only [] at h
    rw [dispatch_digit _ _ hdig] at h
    rcases hcn : create_number_token (skip_whitespace l) with ⟨o, l2⟩
    rw [hcn] at h
    rcases o with _ | e_or_t
    · simp at h
    · rcases e_or_t with e2 | t2
      · dsimp only [] at h
        simp only [LexOut.err.injEq] at h
        subst h
        exact create_number_token_err (by rw [hcn])
      · simp at h

/-- Witness for C4 at the inputs `"123.45.67"` (two decimal points) and
`"9223372036854775808"` (exceeds the i64 range). -/
theorem claim_C4_witness :
    (create_number_token (skip_whitespace (Lexer.new "123.45.67"))).2.position =
      (skip_whitespace (Lexer.new "123.45.67")).position +
        number_count ((skip_whitespace (Lexer.new "123.45.67")).content.drop
          (skip_whitespace (Lexer.new "123.45.67")).position) ∧
    (LexerError.InvalidNumberFormat 0) =
      .InvalidNumberFormat (skip_whitespace (Lexer.new "123.45.67")).position ∧
    (next_token (Lexer.new "123.45.67")).1 = .err (.InvalidNumberFormat 0) ∧
    (next_token (Lexer.new "9223372036854775808")).1 =
      .err (.InvalidNumberFormat 0) := by
  have h := claim_C4 (Lexer.new "123.45.67") '1' (by decide) (by decide)
  exact ⟨h.1, h.2.2.2 (.InvalidNumberFormat 0) rfl, rfl, rfl⟩

/-- Claim C5: when the next non-whitespace character cannot start any
valid token (including `'!'` not followed by `'='`), `next_token` returns
`UnexpectedCharacter(char, position)` at the cursor position, the cursor
does not advance past that character, repeated calls return the same
error, and in particular `"!"` fails at offset 0 and `"x !"` at offset 2. -/
theorem claim_C5 (l : Lexer) (c : Char)
    (hpeek : peek_char (skip_whitespace l) 0 = some c)
    (hmem : ∀ d ∈ start_chars, c ≠ d)
    (hni : is_ident_start c = false) (hnd : rust_is_digit c = false)
    (hbang : c = '!' → ¬(peek_char (skip_whitespace l) 1 = some '=')) :
    next_token l =
      (.err (.UnexpectedCharacter c (skip_whitespace l).position),
        skip_whitespace l) ∧
    next_token (skip_whitespace l) =
      (.err (.UnexpectedCharacter c (skip_whitespace l).position),
        skip_whitespace l) ∧
    tokenize (Lexer.new "!") = .err (.UnexpectedCharacter '!' 0) ∧
    tokenize (Lexer.new "x !") = .err (.UnexpectedCharacter '!' 2) := by
  have hpeek2 := hpeek
  rw [peek_skip_whitespace] at hpeek2
  have hnw := ws_stop hpeek2
  have hp0 : (skip_whitespace l).content.get? (skip_whitespace l).position =
      some c := by
    simpa [peek_char] using hpeek
  have hskip2 : skip_whitespace (skip_whitespace l) = skip_whitespace l :=
    skip_whitespace_fixed hp0 hnw
  refine ⟨?_, ?_, rfl, rfl⟩
  · unfold next_token
    simp only [next_token_go]
    rw [hpeek]
    dsimp only []
    exact dispatch_unexpected _ _ hmem hni hnd hbang
  · unfold next_token
    simp only [next_token_go]
    rw [hskip2, hpeek]
    dsimp only []
    exact dispatch_unexpected _ _ hmem hni hnd hbang

/-- Witness for C5 at the input `"$"`. -/
theorem claim_C5_witness :
    next_token (Lexer.new "$") =
      (.err (.UnexpectedCharacter '$' (skip_whitespace (Lexer.new "$")).position),
        skip_whitespace (Lexer.new "$")) ∧
    next_token (skip_whitespace (Lexer.new "$")) =
      (.err (.UnexpectedCharacter '$' (skip_whitespace (Lexer.new "$")).position),
        skip_whitespace (Lexer.new "$")) :=
  have h := claim_C5 (Lexer.new "$") '$' (by decide) (by decide) (by decide)
    (by decide) (by decide)
  ⟨h.1, h.2.1⟩

/-- Claim C6: longest match wins — `"..="` is one `RangeInclusive` token of
three characters, and `"<="` is one `LessEqual` token of two characters. -/
theorem claim_C6 :
    tokenize (Lexer.new "..=") = .ok [Token.new .RangeInclusive 0 3] ∧
    tokenize (Lexer.new "<=") = .ok [Token.new .LessEqual 0 2] :=
  ⟨rfl, rfl⟩

/-- Claim C7: greedy identifier scanning precedes exact, case-sensitive,
whole-token keyword lookup — `"forfor"` is one `Identifier("forfor")`,
`"for"` is the keyword `For`, and `"For"` is an identifier. -/
theorem claim_C7 :
    tokenize (Lexer.new "forfor") = .ok [Token.new (.Identifier "forfor") 0 6] ∧
    tokenize (Lexer.new "for") = .ok [Token.new .For 0 3] ∧
    tokenize (Lexer.new "For") = .ok [Token.new (.Identifier "For") 0 3] :=
  ⟨rfl, rfl, rfl⟩

/-- Claim C8: comments never produce a token — `"x // c\ny"` yields
exactly `Identifier("x")`, `Newline` (at its lexical offset 6), and
`Identifier("y")`. -/
theorem claim_C8 :
    tokenize (Lexer.new "x // c\ny") =
      .ok [Token.new (.Identifier "x") 0 1, Token.new .Newline 6 1,
        Token.new (.Identifier "y") 7 1] := rfl

/-- Without a closing `*/`, the block-comment loop consumes everything. -/
theorem block_count_all {cs : List Char} (h : has_star_slash cs = false) :
    block_comment_count cs = cs.length := by
  induction cs with
  | nil => rfl
  | cons c t ih =>
    simp only [has_star_slash, Bool.or_eq_false_iff] at h
    rcases h with ⟨h1, h2⟩
    have hcond : ¬(c = '*' ∧ t.head? = some '/') := by
      intro hand
      simp [hand.1, hand.2] at h1
    simp only [block_comment_count, if_neg hcond, ih h2, List.length_cons]

/-- Claim C9: a `/*` with no subsequent `*/` silently consumes the rest of
the input and `next_token` terminates with clean end-of-stream, the cursor
at the end of the buffer. -/
theorem claim_C9 (l : Lexer)
    (h0 : peek_char (skip_whitespace l) 0 = some '/')
    (h1 : peek_char (skip_whitespace l) 1 = some '*')
    (hnc : has_star_slash ((skip_whitespace l).content.drop
      ((skip_whitespace l).position + 2)) = false) :
    (next_token l).1 = .eof ∧
    (next_token l).2.position = l.content.length := by
  have hget : (skip_whitespace l).content.get?
      ((skip_whitespace l).position + 1) = some '*' := by
    simpa [peek_char] using h1
  have hlt : (skip_whitespace l).position + 1 < l.content.length := by
    rw [skip_whitespace_content] at hget
    exact (List.get?_eq_some.mp hget).1
  have hcount : block_comment_count
      ((advance (skip_whitespace l) 2).content.drop
        (advance (skip_whitespace l) 2).position) =
      l.content.length - ((skip_whitespace l).position + 2) := by
    dsimp only [advance]
    rw [block_count_all hnc, List.length_drop, skip_whitespace_content]
  have hmain : next_token l = (.eof,
      advance (advance (skip_whitespace l) 2)
        (l.content.length - ((skip_whitespace l).position + 2))) := by
    unfold next_token
    simp only [next_token_go]
    rw [h0]
    dsimp only []
    rw [dispatch_slash_block _ _ h1, hcount]
    refine go_eof (by omega) ?_
    dsimp only [advance]
    rw [skip_whitespace_content]
    omega
  rw [hmain]
  refine ⟨rfl, ?_⟩
  dsimp only [advance]
  omega

/-- Witness for C9 at the input `"/* abc"`. -/
theorem claim_C9_witness :
    (next_token (Lexer.new "/* abc")).1 = .eof ∧
    (next_token (Lexer.new "/* abc")).2.position =
      (Lexer.new "/* abc").content.length :=
  claim_C9 (Lexer.new "/* abc") (by decide) (by decide) (by decide)

/-- Claim C10: `"1..2"` is a lexical error — the digit-started scan
greedily consumes digits and dots without limiting decimal points, so
`next_token` returns `InvalidNumberFormat(0)` rather than the token
sequence `Integer(1)`, `Range`, `Integer(2)`. -/
theorem claim_C10 :
    (next_token (Lexer.new "1..2")).1 = .err (.InvalidNumberFormat 0) ∧
    tokenize (Lexer.new "1..2") = .err (.InvalidNumberFormat 0) ∧
    ¬(tokenize (Lexer.new "1..2") =
      .ok [Token.new (.Number (.Integer 1)) 0 1, Token.new .Range 1 2,
        Token.new (.Number (.Integer 2)) 3 1]) :=
  ⟨rfl, rfl, fun h => by
    rw [show tokenize (Lexer.new "1..2") = .err (.InvalidNumberFormat 0)
      from rfl] at h
    exact TokensOut.noConfusion h⟩
end CV
